import Mathlib

/-!
# Verification of the itinerary persistence service of App-viaggi

Shallow embedding of the Express + better-sqlite3 itinerary service found in
`src/App.tsx` (lines 627-720): the `itineraries` table, the JSON encoding of
the `interests`/`activities` columns (`JSON.stringify`/`JSON.parse` of string
arrays), and the five route handlers (create, list, get, rename-title,
delete).  Theorems check the natural-language specification's claims against
this embedding.
-/

namespace AppViaggi

/-! ## Serialization adapter: `JSON.stringify` of an array of strings

`JSON.stringify(listOfStrings)` quotes each string, escaping `"` and `\`,
using the short escapes `\b \t \n \f \r` for those control characters and
`\u00xx` (lowercase hex) for the remaining code points below `0x20`, and
joins the quoted strings with `,` inside `[` `]` with no added whitespace.
Strings are modelled as Lean `String` (sequences of Unicode scalar values);
lone UTF-16 surrogates, which cannot occur in a Lean string, are outside the
model. -/

def hexDigit (n : Nat) : Char :=
  if n < 10 then Char.ofNat (48 + n) else Char.ofNat (87 + n)

def escChar (c : Char) : List Char :=
  if c = '"' then ['\\', '"']
  else if c = '\\' then ['\\', '\\']
  else if c = '\x08' then ['\\', 'b']
  else if c = '\x09' then ['\\', 't']
  else if c = '\x0a' then ['\\', 'n']
  else if c = '\x0c' then ['\\', 'f']
  else if c = '\x0d' then ['\\', 'r']
  else if c.toNat < 32 then
    ['\\', 'u', '0', '0', hexDigit (c.toNat / 16), hexDigit (c.toNat % 16)]
  else [c]

def escape : List Char → List Char
  | [] => []
  | c :: cs => escChar c ++ escape cs

def encodeStringChars (s : List Char) : List Char :=
  '"' :: (escape s ++ ['"'])

def encodeElems : List (List Char) → List Char
  | [] => []
  | [s] => encodeStringChars s
  | s :: t :: rest => encodeStringChars s ++ ',' :: encodeElems (t :: rest)

def encodeArrayChars (l : List (List Char)) : List Char :=
  '[' :: (encodeElems l ++ [']'])

/-- `encodeSequence` is `JSON.stringify` applied to an array of strings, as
used on `interests` and `activities` in `app.post("/api/itineraries")`. -/
def encodeSequence (l : List String) : String :=
  ⟨encodeArrayChars (l.map String.data)⟩

/-! ## `JSON.parse` restricted to arrays of strings

The service parses the stored columns with `JSON.parse`.  The decoder below
implements the JSON grammar restricted to the values the encoder above can
produce — arrays of strings — including inter-token whitespace and the full
set of string escapes (`\" \\ \/ \b \f \n \r \t \uXXXX`); it rejects raw
control characters inside strings and trailing garbage, as `JSON.parse`
does.  `\uXXXX` sequences denoting UTF-16 surrogate halves are rejected
(a Lean string cannot hold a lone surrogate); the encoder never emits them. -/

def isJsonWs (c : Char) : Bool :=
  c = ' ' || c = '\x09' || c = '\x0a' || c = '\x0d'

def skipWs : List Char → List Char
  | [] => []
  | c :: cs => if isJsonWs c then skipWs cs else c :: cs

def hexVal (c : Char) : Option Nat :=
  if 48 ≤ c.toNat ∧ c.toNat ≤ 57 then some (c.toNat - 48)
  else if 97 ≤ c.toNat ∧ c.toNat ≤ 102 then some (c.toNat - 87)
  else if 65 ≤ c.toNat ∧ c.toNat ≤ 70 then some (c.toNat - 55)
  else none

def parseStrBody : List Char → Option (List Char × List Char)
  | [] => none
  | c :: rest =>
    if c = '"' then some ([], rest)
    else if c = '\\' then
      match rest with
      | [] => none
      | e :: rest2 =>
        if e = '"' then (parseStrBody rest2).map (fun p => ('"' :: p.1, p.2))
        else if e = '\\' then (parseStrBody rest2).map (fun p => ('\\' :: p.1, p.2))
        else if e = '/' then (parseStrBody rest2).map (fun p => ('/' :: p.1, p.2))
        else if e = 'b' then (parseStrBody rest2).map (fun p => ('\x08' :: p.1, p.2))
        else if e = 'f' then (parseStrBody rest2).map (fun p => ('\x0c' :: p.1, p.2))
        else if e = 'n' then (parseStrBody rest2).map (fun p => ('\x0a' :: p.1, p.2))
        else if e = 'r' then (parseStrBody rest2).map (fun p => ('\x0d' :: p.1, p.2))
        else if e = 't' then (parseStrBody rest2).map (fun p => ('\x09' :: p.1, p.2))
        else if e = 'u' then
          match rest2 with
          | h1 :: h2 :: h3 :: h4 :: rest3 =>
            match hexVal h1, hexVal h2, hexVal h3, hexVal h4 with
            | some a, some b, some c2, some d =>
              let n := ((a * 16 + b) * 16 + c2) * 16 + d
              if n < 55296 ∨ (57344 ≤ n ∧ n < 1114112) then
                (parseStrBody rest3).map (fun p => (Char.ofNat n :: p.1, p.2))
              else none
            | _, _, _, _ => none
          | _ => none
        else none
    else if c.toNat < 32 then none
    else (parseStrBody rest).map (fun p => (c :: p.1, p.2))

def parseString (s : List Char) : Option (List Char × List Char) :=
  match s with
  | [] => none
  | c :: rest => if c = '"' then parseStrBody rest else none

def parseElems : Nat → List Char → Option (List (List Char) × List Char)
  | 0, _ => none
  | fuel + 1, s =>
    match parseString s with
    | none => none
    | some (str, rest) =>
      match skipWs rest with
      | [] => none
      | c :: rest2 =>
        if c = ',' then
          (parseElems fuel (skipWs rest2)).map (fun p => (str :: p.1, p.2))
        else if c = ']' then some ([str], rest2)
        else none

def parseArray (s : List Char) : Option (List (List Char) × List Char) :=
  match skipWs s with
  | [] => none
  | c :: rest =>
    if c = '[' then
      match skipWs rest with
      | [] => none
      | c2 :: rest2 =>
        if c2 = ']' then some ([], rest2)
        else parseElems (rest.length + 1) (c2 :: rest2)
    else none

/-- `decodeSequence` is `JSON.parse` (restricted to arrays of strings, the
only values this service ever stores) applied to a stored column, as in
`app.get("/api/itineraries")` and `app.get("/api/itineraries/:id")`;
`none` models the `JSON.parse` exception on malformed text. -/
def decodeSequence (s : String) : Option (List String) :=
  match parseArray s.data with
  | none => none
  | some (l, rest) =>
    if skipWs rest = [] then some (l.map fun cs => ⟨cs⟩) else none

/-! ## Record store and service state

One table `itineraries` (`CREATE TABLE IF NOT EXISTS` at the top of the
server file), `id TEXT PRIMARY KEY`, `interests`/`activities` stored as
text, `created_at DATETIME DEFAULT CURRENT_TIMESTAMP`.

`created_at` is modelled as a `Nat` drawn from a strictly monotonic clock
(`DB.clock`), one tick per insertion: `CURRENT_TIMESTAMP` is assigned by the
store at insertion and is non-decreasing in insertion order; the embedding
assumes distinct insertion instants, which is also what the specification's
own "`created_at` ordering is consistent with insertion ordering" assumes.
`DB.rows` keeps the rows in insertion (rowid/scan) order. -/

structure Row where
  id : String
  title : String
  destination : String
  duration : Int
  budget : String
  type : String
  interests : String
  activities : String
  content : String
  created_at : Nat
deriving DecidableEq, Repr

structure DB where
  rows : List Row
  clock : Nat
deriving DecidableEq, Repr

def emptyDB : DB := ⟨[], 0⟩

/-- The JSON request body of `app.post("/api/itineraries")` after
`express.json()`: each destructured field is either present (`some`) or
`undefined` (`none`). -/
structure CreateInput where
  title : Option String
  destination : Option String
  duration : Option Int
  budget : Option String
  type : Option String
  interests : Option (List String)
  activities : Option (List String)
  content : Option String
deriving DecidableEq, Repr

/-- JavaScript template-literal interpolation of a possibly-undefined string:
`` `Viaggio a ${destination}` `` renders `undefined` as the text
`"undefined"`. -/
def jsStr (o : Option String) : String :=
  match o with
  | some s => s
  | none => "undefined"

/-- The second argument of `stmt.run`: `title || `Viaggio a ${destination}``.
`undefined` and the empty string are falsy, any other string is truthy. -/
def boundTitle (input : CreateInput) : String :=
  match input.title with
  | some t => if t = "" then "Viaggio a " ++ jsStr input.destination else t
  | none => "Viaggio a " ++ jsStr input.destination

/-- Outcome of the POST route.  The route itself can only answer
`created id` or throw from `stmt.run`: a `TypeError` when a bound value is
`undefined` (better-sqlite3 rejects `undefined` bind parameters;
`JSON.stringify(undefined)` is `undefined`), or a `SqliteError` on a
`PRIMARY KEY` collision.  `validationError` is the specification's
service-boundary failure vocabulary; it is included so that claims about it
can be stated, and the handler is shown never to produce it. -/
inductive CreateOutcome where
  | created (id : String)
  | validationError
  | sqlBindError
  | storageUniqueError
deriving DecidableEq, Repr

/-- `app.post("/api/itineraries")` (src/App.tsx lines 658-670).  `id` is the
`uuidv4()` value.  No field is validated; the insert is attempted directly.
The row is appended (rowid order) with `created_at` from the store clock. -/
def createHandler (db : DB) (input : CreateInput) (id : String) : DB × CreateOutcome :=
  match input.destination, input.duration, input.budget, input.type,
      input.interests, input.activities, input.content with
  | some d, some n, some b, some ty, some ints, some acts, some c =>
    if db.rows.any (fun r => r.id == id) then (db, .storageUniqueError)
    else
      let row : Row :=
        { id := id, title := boundTitle input, destination := d,
          duration := n, budget := b, type := ty, interests := encodeSequence ints,
          activities := encodeSequence acts, content := c, created_at := db.clock }
      ({ rows := db.rows ++ [row], clock := db.clock + 1 }, .created id)
  | _, _, _, _, _, _, _ => (db, .sqlBindError)

/-- The structured record shape a decoded row is sent back as: the row with
`interests`/`activities` replaced by their `JSON.parse`d values. -/
structure Record where
  id : String
  title : String
  destination : String
  duration : Int
  budget : String
  type : String
  interests : List String
  activities : List String
  content : String
  created_at : Nat
deriving DecidableEq, Repr

/-- `{...row, interests: JSON.parse(row.interests), activities:
JSON.parse(row.activities)}`; `none` models the `JSON.parse` exception. -/
def decodeRow (r : Row) : Option Record :=
  match decodeSequence r.interests, decodeSequence r.activities with
  | some ints, some acts =>
    some { id := r.id, title := r.title, destination := r.destination,
           duration := r.duration, budget := r.budget, type := r.type,
           interests := ints, activities := acts, content := r.content,
           created_at := r.created_at }
  | _, _ => none

/-- Stable insertion step for sorting by `created_at` descending. -/
def insDesc (r : Row) : List Row → List Row
  | [] => [r]
  | x :: xs => if r.created_at > x.created_at then r :: x :: xs else x :: insDesc r xs

/-- `ORDER BY created_at DESC` (stable w.r.t. scan order on ties; reachable
states have no ties). -/
def sortByCreatedDesc : List Row → List Row
  | [] => []
  | r :: rs => insDesc r (sortByCreatedDesc rs)

/-- `SELECT * FROM itineraries ORDER BY created_at DESC`. -/
def selectAll (db : DB) : List Row :=
  sortByCreatedDesc db.rows

def decodeRows : List Row → Option (List Record)
  | [] => some []
  | r :: rs =>
    match decodeRow r, decodeRows rs with
    | some rec, some recs => some (rec :: recs)
    | _, _ => none

/-- `app.get("/api/itineraries")` (lines 672-679): all rows, newest first,
each decoded; `none` models the route throwing (HTTP 500) if a stored
column fails to parse. -/
def listHandler (db : DB) : Option (List Record) :=
  decodeRows (selectAll db)

/-- `SELECT * FROM itineraries WHERE id = ?` with `.get`: the first matching
row in scan order, if any. -/
def selectById (db : DB) (id : String) : Option Row :=
  db.rows.find? (fun r => r.id == id)

/-- Outcome of the GET-by-id route: the decoded record, the 404 branch, or
the `JSON.parse` exception on a corrupt stored column. -/
inductive GetOutcome where
  | ok (r : Record)
  | notFound
  | malformedData
deriving DecidableEq, Repr

/-- `app.get("/api/itineraries/:id")` (lines 681-690). -/
def getHandler (db : DB) (id : String) : GetOutcome :=
  match selectById db id with
  | none => .notFound
  | some r =>
    match decodeRow r with
    | some rec => .ok rec
    | none => .malformedData

/-- Outcome of the PATCH and DELETE routes: `{ success: true }`, or the
bind-parameter `TypeError` when the PATCH body carries no `title`. -/
inductive UpdateOutcome where
  | success
  | sqlBindError
deriving DecidableEq, Repr

/-- `UPDATE itineraries SET title = ? WHERE id = ?`: every row whose id
matches gets the new title; matching nothing is a no-op. -/
def updateTitle (db : DB) (id : String) (t : String) : DB :=
  { db with rows := db.rows.map (fun r => if r.id == id then { r with title := t } else r) }

/-- `app.patch("/api/itineraries/:id")` (lines 692-696): `title` is
destructured from the body (`none` when absent, which makes `stmt.run`
throw on the `undefined` bind value); always answers success otherwise. -/
def patchHandler (db : DB) (id : String) (title : Option String) : DB × UpdateOutcome :=
  match title with
  | none => (db, .sqlBindError)
  | some t => (updateTitle db id t, .success)

/-- `DELETE FROM itineraries WHERE id = ?`. -/
def deleteById (db : DB) (id : String) : DB :=
  { db with rows := db.rows.filter (fun r => ! (r.id == id)) }

/-- `app.delete("/api/itineraries/:id")` (lines 698-701): unconditionally
deletes and answers `{ success: true }`. -/
def deleteHandler (db : DB) (id : String) : DB × UpdateOutcome :=
  (deleteById db id, .success)

/-! ## Reachable states and the store invariant -/

/-- States reachable from the empty store through the mutating routes. -/
inductive Reachable : DB → Prop
  | empty : Reachable emptyDB
  | create (db : DB) (input : CreateInput) (id : String) :
      Reachable db → Reachable (createHandler db input id).1
  | patch (db : DB) (id : String) (title : Option String) :
      Reachable db → Reachable (patchHandler db id title).1
  | delete (db : DB) (id : String) :
      Reachable db → Reachable (deleteHandler db id).1

/-- Both sequence columns of a row are encoder images. -/
def RowOk (r : Row) : Prop :=
  (∃ l, r.interests = encodeSequence l) ∧ (∃ l, r.activities = encodeSequence l)

/-- Store invariant: ids are distinct (`PRIMARY KEY`), rows are listed in
strictly increasing `created_at` order, every `created_at` is below the
clock, and the sequence columns are well-formed encodings. -/
def Inv (db : DB) : Prop :=
  db.rows.Pairwise (fun a b => a.created_at < b.created_at) ∧
  (∀ r ∈ db.rows, r.created_at < db.clock) ∧
  (db.rows.map Row.id).Nodup ∧
  (∀ r ∈ db.rows, RowOk r)

/-! ## Concrete sample values (used to instantiate theorems with hypotheses) -/

/-- A create request body with no `destination` (and no `title`). -/
def noDestinationInput : CreateInput :=
  { title := none, destination := none, duration := some 5, budget := some "medio",
    type := some "cultural", interests := some ["Arte"], activities := some ["Musei"],
    content := some "# Giorno 1" }

/-- The specification's scenario input: all fields present, no `title`. -/
def defaultTitleInput : CreateInput :=
  { title := none, destination := some "Tokyo", duration := some 5, budget := some "medio",
    type := some "cultural", interests := some ["Arte"], activities := some ["Musei"],
    content := some "# Giorno 1" }

/-- A fully-populated create request body with an explicit non-empty title. -/
def titledInput : CreateInput :=
  { title := some "Viaggio", destination := some "Tokyo", duration := some 5,
    budget := some "medio", type := some "cultural", interests := some ["Arte"],
    activities := some ["Musei"], content := some "# Giorno 1" }

/-- The create request whose successful insertion produces `sampleRow`. -/
def sampleInput : CreateInput :=
  { title := some "T", destination := some "Roma", duration := some 3,
    budget := some "medio", type := some "relax", interests := some ["Arte"],
    activities := some ["Musei"], content := some "corpo" }

/-- A well-formed stored row. -/
def sampleRow : Row :=
  { id := "r1", title := "T", destination := "Roma", duration := 3, budget := "medio",
    type := "relax", interests := encodeSequence ["Arte"],
    activities := encodeSequence ["Musei"], content := "corpo", created_at := 0 }

/-- A store holding exactly `sampleRow`. -/
def sampleDB : DB := ⟨[sampleRow], 1⟩

/-! ## Round-trip of the sequence encoding -/

theorem hexVal_hexDigit {k : Nat} (h : k < 16) : hexVal (hexDigit k) = some k := by
  interval_cases k <;> decide

theorem parseStrBody_quote (r : List Char) : parseStrBody ('"' :: r) = some ([], r) := by
  rw [parseStrBody.eq_def]; simp

theorem parseStrBody_escQuote (r : List Char) :
    parseStrBody ('\\' :: '"' :: r) = (parseStrBody r).map (fun p => ('"' :: p.1, p.2)) := by
  rw [parseStrBody.eq_def]; simp

theorem parseStrBody_escBackslash (r : List Char) :
    parseStrBody ('\\' :: '\\' :: r) = (parseStrBody r).map (fun p => ('\\' :: p.1, p.2)) := by
  rw [parseStrBody.eq_def]; simp

theorem parseStrBody_escB (r : List Char) :
    parseStrBody ('\\' :: 'b' :: r) = (parseStrBody r).map (fun p => ('\x08' :: p.1, p.2)) := by
  rw [parseStrBody.eq_def]; simp

theorem parseStrBody_escT (r : List Char) :
    parseStrBody ('\\' :: 't' :: r) = (parseStrBody r).map (fun p => ('\x09' :: p.1, p.2)) := by
  rw [parseStrBody.eq_def]; simp

theorem parseStrBody_escN (r : List Char) :
    parseStrBody ('\\' :: 'n' :: r) = (parseStrBody r).map (fun p => ('\x0a' :: p.1, p.2)) := by
  rw [parseStrBody.eq_def]; simp

theorem parseStrBody_escF (r : List Char) :
    parseStrBody ('\\' :: 'f' :: r) = (parseStrBody r).map (fun p => ('\x0c' :: p.1, p.2)) := by
  rw [parseStrBody.eq_def]; simp

theorem parseStrBody_escR (r : List Char) :
    parseStrBody ('\\' :: 'r' :: r) = (parseStrBody r).map (fun p => ('\x0d' :: p.1, p.2)) := by
  rw [parseStrBody.eq_def]; simp

theorem parseStrBody_escU {a b c d : Char} {va vb vc vd : Nat} (r : List Char)
    (ha : hexVal a = some va) (hb : hexVal b = some vb)
    (hc : hexVal c = some vc) (hd : hexVal d = some vd)
    (hn : ((va * 16 + vb) * 16 + vc) * 16 + vd < 55296) :
    parseStrBody ('\\' :: 'u' :: a :: b :: c :: d :: r)
      = (parseStrBody r).map
          (fun p => (Char.ofNat (((va * 16 + vb) * 16 + vc) * 16 + vd) :: p.1, p.2)) := by
  rw [parseStrBody.eq_def]
  simp [ha, hb, hc, hd, hn]

theorem parseStrBody_plain {c : Char} (h1 : c ≠ '"') (h2 : c ≠ '\\')
    (h3 : ¬ c.toNat < 32) (r : List Char) :
    parseStrBody (c :: r) = (parseStrBody r).map (fun p => (c :: p.1, p.2)) := by
  rw [parseStrBody.eq_def]
  simp [h1, h2, h3]

theorem parseStrBody_escape (s : List Char) (rest : List Char) :
    parseStrBody (escape s ++ '"' :: rest) = some (s, rest) := by
  induction s with
  | nil => rw [escape, List.nil_append, parseStrBody_quote]
  | cons c s ih =>
    rw [escape, List.append_assoc]
    by_cases h1 : c = '"'
    · subst h1
      rw [show escChar '"' = ['\\', '"'] from by decide]
      simp only [List.cons_append, List.nil_append]
      rw [parseStrBody_escQuote, ih]; rfl
    · by_cases h2 : c = '\\'
      · subst h2
        rw [show escChar '\\' = ['\\', '\\'] from by decide]
        simp only [List.cons_append, List.nil_append]
        rw [parseStrBody_escBackslash, ih]; rfl
      · by_cases h3 : c = '\x08'
        · subst h3
          rw [show escChar '\x08' = ['\\', 'b'] from by decide]
          simp only [List.cons_append, List.nil_append]
          rw [parseStrBody_escB, ih]; rfl
        · by_cases h4 : c = '\x09'
          · subst h4
            rw [show escChar '\x09' = ['\\', 't'] from by decide]
            simp only [List.cons_append, List.nil_append]
            rw [parseStrBody_escT, ih]; rfl
          · by_cases h5 : c = '\x0a'
            · subst h5
              rw [show escChar '\x0a' = ['\\', 'n'] from by decide]
              simp only [List.cons_append, List.nil_append]
              rw [parseStrBody_escN, ih]; rfl
            · by_cases h6 : c = '\x0c'
              · subst h6
                rw [show escChar '\x0c' = ['\\', 'f'] from by decide]
                simp only [List.cons_append, List.nil_append]
                rw [parseStrBody_escF, ih]; rfl
              · by_cases h7 : c = '\x0d'
                · subst h7
                  rw [show escChar '\x0d' = ['\\', 'r'] from by decide]
                  simp only [List.cons_append, List.nil_append]
                  rw [parseStrBody_escR, ih]; rfl
                · by_cases h8 : c.toNat < 32
                  · have hdiv : c.toNat / 16 < 16 := by omega
                    have hmod : c.toNat % 16 < 16 := by omega
                    rw [show escChar c
                        = ['\\', 'u', '0', '0', hexDigit (c.toNat / 16), hexDigit (c.toNat % 16)]
                      from by simp [escChar, h1, h2, h3, h4, h5, h6, h7, h8]]
                    simp only [List.cons_append, List.nil_append]
                    rw [parseStrBody_escU _ (show hexVal '0' = some 0 from by decide)
                      (show hexVal '0' = some 0 from by decide)
                      (hexVal_hexDigit hdiv) (hexVal_hexDigit hmod) (by omega), ih]
                    have hn : ((0 * 16 + 0) * 16 + c.toNat / 16) * 16 + c.toNat % 16
                        = c.toNat := by omega
                    rw [hn, Char.ofNat_toNat]; rfl
                  · rw [show escChar c = [c] from by
                      simp [escChar, h1, h2, h3, h4, h5, h6, h7, h8]]
                    simp only [List.cons_append, List.nil_append]
                    rw [parseStrBody_plain h1 h2 h8, ih]; rfl

theorem parseString_encode (s : List Char) (rest : List Char) :
    parseString (encodeStringChars s ++ rest) = some (s, rest) := by
  rw [encodeStringChars, List.cons_append, List.append_assoc]
  rw [parseString]
  simp [parseStrBody_escape]

theorem skipWs_not_ws {c : Char} (h : isJsonWs c = false) (r : List Char) :
    skipWs (c :: r) = c :: r := by
  simp [skipWs, h]

theorem encodeElems_cons_head (y : List Char) (t : List (List Char)) :
    ∃ tl, encodeElems (y :: t) = '"' :: tl := by
  cases t with
  | nil => exact ⟨escape y ++ ['"'], rfl⟩
  | cons z t =>
    refine ⟨escape y ++ ['"'] ++ (',' :: encodeElems (z :: t)), ?_⟩
    rw [encodeElems, encodeStringChars]
    simp

theorem length_le_encodeElems (x : List Char) (t : List (List Char)) :
    (x :: t).length ≤ (encodeElems (x :: t)).length := by
  induction t generalizing x with
  | nil =>
    rw [encodeElems, encodeStringChars]
    simp
  | cons y t ih =>
    have h := ih y
    rw [encodeElems, encodeStringChars]
    simp only [List.length_cons, List.length_append, List.length_cons] at *
    omega


theorem parseElems_succ (fuel : Nat) (s : List Char) :
    parseElems (fuel + 1) s
      = match parseString s with
        | none => none
        | some (str, rest) =>
          match skipWs rest with
          | [] => none
          | c :: rest2 =>
            if c = ',' then
              (parseElems fuel (skipWs rest2)).map (fun p => (str :: p.1, p.2))
            else if c = ']' then some ([str], rest2)
            else none := rfl

theorem parseElems_encode (t : List (List Char)) (x : List Char) (rest : List Char) :
    ∀ fuel, (x :: t).length ≤ fuel →
      parseElems fuel (encodeElems (x :: t) ++ ']' :: rest) = some (x :: t, rest) := by
  induction t generalizing x with
  | nil =>
    intro fuel hf
    cases fuel with
    | zero => simp at hf
    | succ f =>
      rw [encodeElems, parseElems_succ, parseString_encode]
      simp [skipWs, isJsonWs]
  | cons y t ih =>
    intro fuel hf
    cases fuel with
    | zero => simp at hf
    | succ f =>
      obtain ⟨tl, htl⟩ := encodeElems_cons_head y t
      have hws : skipWs (encodeElems (y :: t) ++ ']' :: rest)
          = encodeElems (y :: t) ++ ']' :: rest := by
        rw [htl, List.cons_append]; exact skipWs_not_ws (by decide) _
      have hih := ih y f (by simp only [List.length_cons] at hf ⊢; omega)
      rw [encodeElems, List.append_assoc, List.cons_append, parseElems_succ,
        parseString_encode]
      simp [skipWs, isJsonWs, hws, hih]

theorem parseArray_encode (l : List (List Char)) (rest : List Char) :
    parseArray (encodeArrayChars l ++ rest) = some (l, rest) := by
  cases l with
  | nil =>
    rw [encodeArrayChars, encodeElems]
    simp [parseArray, skipWs, isJsonWs]
  | cons x t =>
    obtain ⟨tl, htl⟩ := encodeElems_cons_head x t
    have hlen := length_le_encodeElems x t
    have henc := parseElems_encode t x rest (tl.length + (rest.length + 1) + 1 + 1)
      (by rw [htl] at hlen; simp only [List.length_cons] at hlen ⊢; omega)
    rw [encodeArrayChars, htl]
    simp only [List.cons_append, List.append_assoc, List.nil_append]
    rw [parseArray]
    rw [skipWs_not_ws (by decide)]
    rw [htl, List.cons_append] at henc
    simp [skipWs, isJsonWs, henc]

theorem decodeSequence_encodeSequence (l : List String) :
    decodeSequence (encodeSequence l) = some l := by
  rw [decodeSequence, encodeSequence]
  have hdata : (⟨encodeArrayChars (l.map String.data)⟩ : String).data
      = encodeArrayChars (l.map String.data) := rfl
  rw [hdata]
  have h := parseArray_encode (l.map String.data) []
  rw [List.append_nil] at h
  rw [h]
  have hid : ((fun cs => (⟨cs⟩ : String)) ∘ String.data) = id := by
    funext x; rfl
  simp only [skipWs, reduceIte, List.map_map, hid, List.map_id]


theorem insDesc_bottom (r : Row) (l : List Row)
    (h : ∀ x ∈ l, r.created_at < x.created_at) : insDesc r l = l ++ [r] := by
  induction l with
  | nil => rfl
  | cons x xs ih =>
    rw [insDesc]
    have hx := h x (by simp)
    rw [if_neg (by omega)]
    rw [ih (fun y hy => h y (by simp [hy]))]
    rfl

theorem sortByCreatedDesc_of_pairwise (rows : List Row)
    (h : rows.Pairwise (fun a b => a.created_at < b.created_at)) :
    sortByCreatedDesc rows = rows.reverse := by
  induction rows with
  | nil => rfl
  | cons r rs ih =>
    rw [sortByCreatedDesc, ih (List.Pairwise.of_cons h)]
    rw [insDesc_bottom r rs.reverse (fun x hx =>
      (List.pairwise_cons.mp h).1 x (List.mem_reverse.mp hx))]
    rw [List.reverse_cons]

theorem createHandler_cases (db : DB) (input : CreateInput) (id : String) :
    (createHandler db input id) = (db, CreateOutcome.sqlBindError) ∨
    (createHandler db input id) = (db, CreateOutcome.storageUniqueError) ∨
    (∃ row : Row, row.id = id ∧ row.created_at = db.clock ∧ RowOk row ∧
      db.rows.any (fun r => r.id == id) = false ∧
      createHandler db input id = (⟨db.rows ++ [row], db.clock + 1⟩, .created id)) := by
  cases hd : input.destination with
  | none => left; simp [createHandler, hd]
  | some d =>
  cases hn : input.duration with
  | none => left; simp [createHandler, hd, hn]
  | some n =>
  cases hb : input.budget with
  | none => left; simp [createHandler, hd, hn, hb]
  | some b =>
  cases hty : input.type with
  | none => left; simp [createHandler, hd, hn, hb, hty]
  | some ty =>
  cases hints : input.interests with
  | none => left; simp [createHandler, hd, hn, hb, hty, hints]
  | some ints =>
  cases hacts : input.activities with
  | none => left; simp [createHandler, hd, hn, hb, hty, hints, hacts]
  | some acts =>
  cases hc : input.content with
  | none => left; simp [createHandler, hd, hn, hb, hty, hints, hacts, hc]
  | some c =>
  by_cases hany : db.rows.any (fun r => r.id == id) = true
  · right; left; simp [createHandler, hd, hn, hb, hty, hints, hacts, hc, hany]
  · right; right
    refine ⟨{ id := id, title := boundTitle input, destination := d, duration := n, budget := b, type := ty, interests := encodeSequence ints, activities := encodeSequence acts, content := c, created_at := db.clock }, rfl, rfl, ⟨⟨ints, rfl⟩, ⟨acts, rfl⟩⟩, by simpa using hany, ?_⟩
    simp [createHandler, hd, hn, hb, hty, hints, hacts, hc, hany]

theorem inv_empty : Inv emptyDB := by
  constructor
  · exact List.Pairwise.nil
  · constructor
    · intro r hr; simp [emptyDB] at hr
    · constructor
      · simp [emptyDB]
      · intro r hr; simp [emptyDB] at hr

theorem inv_create (db : DB) (input : CreateInput) (id : String) (h : Inv db) :
    Inv (createHandler db input id).1 := by
  rcases createHandler_cases db input id with hcase | hcase | ⟨row, hid, hts, hok, hany, hcase⟩
  · rw [hcase]; exact h
  · rw [hcase]; exact h
  · rw [hcase]
    dsimp only
    obtain ⟨hpair, hclock, hnodup, hrowok⟩ := h
    refine ⟨?_, ?_, ?_, ?_⟩
    · rw [List.pairwise_append]
      refine ⟨hpair, List.pairwise_singleton _ _, ?_⟩
      intro a ha b hb
      simp at hb
      rw [hb, hts]
      exact hclock a ha
    · intro r hr
      have hcl : ({ rows := db.rows ++ [row], clock := db.clock + 1 } : DB).clock
          = db.clock + 1 := rfl
      rw [hcl]
      rcases List.mem_append.mp hr with hr | hr
      · have := hclock r hr; omega
      · simp at hr; rw [hr, hts]; omega
    · rw [List.map_append, List.nodup_append]
      refine ⟨hnodup, by simp, ?_⟩
      intro a ha hb
      simp only [List.map_cons, List.map_nil, List.mem_singleton] at hb
      rw [List.any_eq_false] at hany
      rcases List.mem_map.mp ha with ⟨r, hrmem, hrid⟩
      have hne := hany r hrmem
      simp at hne
      rw [hb, hid] at hrid
      exact hne hrid
    · intro r hr
      rcases List.mem_append.mp hr with hr | hr
      · exact hrowok r hr
      · simp at hr; rw [hr]; exact hok

theorem updateTitle_map_created_at (id : String) (t : String) (r : Row) :
    ((fun r => if r.id == id then { r with title := t } else r) r).created_at
      = r.created_at := by
  by_cases h : r.id == id <;> simp [h]

theorem updateTitle_map_id (id : String) (t : String) (r : Row) :
    ((fun r => if r.id == id then { r with title := t } else r) r).id = r.id := by
  by_cases h : r.id == id <;> simp [h]

theorem inv_patch (db : DB) (id : String) (title : Option String) (h : Inv db) :
    Inv (patchHandler db id title).1 := by
  cases title with
  | none => exact h
  | some t =>
    obtain ⟨hpair, hclock, hnodup, hrowok⟩ := h
    refine ⟨?_, ?_, ?_, ?_⟩
    · rw [patchHandler, updateTitle, List.pairwise_map]
      refine hpair.imp_of_mem ?_
      intro a b _ _ hab
      rw [updateTitle_map_created_at, updateTitle_map_created_at]
      exact hab
    · intro r hr
      rw [patchHandler, updateTitle] at hr
      rcases List.mem_map.mp hr with ⟨r0, hr0, hr0eq⟩
      rw [← hr0eq, updateTitle_map_created_at]
      exact hclock r0 hr0
    · rw [patchHandler, updateTitle]
      simp only [List.map_map]
      have : (Row.id ∘ fun r => if r.id == id then { r with title := t } else r)
          = Row.id := by
        funext r; exact updateTitle_map_id id t r
      rw [this]
      exact hnodup
    · intro r hr
      rw [patchHandler, updateTitle] at hr
      rcases List.mem_map.mp hr with ⟨r0, hr0, hr0eq⟩
      have := hrowok r0 hr0
      rw [← hr0eq]
      by_cases hcase : r0.id == id <;> simp [hcase] <;>
        exact ⟨this.1, this.2⟩

theorem inv_delete (db : DB) (id : String) (h : Inv db) :
    Inv (deleteHandler db id).1 := by
  obtain ⟨hpair, hclock, hnodup, hrowok⟩ := h
  refine ⟨?_, ?_, ?_, ?_⟩
  · exact hpair.sublist (List.filter_sublist _)
  · intro r hr
    exact hclock r ((List.filter_sublist _).mem hr)
  · exact hnodup.sublist ((List.filter_sublist _).map Row.id)
  · intro r hr
    exact hrowok r ((List.filter_sublist _).mem hr)

theorem reachable_inv {db : DB} (h : Reachable db) : Inv db := by
  induction h with
  | empty => exact inv_empty
  | create db input id _ ih => exact inv_create db input id ih
  | patch db id title _ ih => exact inv_patch db id title ih
  | delete db id _ ih => exact inv_delete db id ih

/-! ## Decoding under the invariant -/

theorem decodeRow_ok {r : Row} (h : RowOk r) : ∃ rec, decodeRow r = some rec := by
  obtain ⟨⟨l1, h1⟩, ⟨l2, h2⟩⟩ := h
  rw [decodeRow, h1, h2, decodeSequence_encodeSequence, decodeSequence_encodeSequence]
  exact ⟨_, rfl⟩

theorem decodeRows_ok {l : List Row} (h : ∀ r ∈ l, RowOk r) :
    ∃ recs, decodeRows l = some recs := by
  induction l with
  | nil => exact ⟨[], rfl⟩
  | cons r rs ih =>
    obtain ⟨rec, hrec⟩ := decodeRow_ok (h r (by simp))
    obtain ⟨recs, hrecs⟩ := ih (fun x hx => h x (by simp [hx]))
    exact ⟨rec :: recs, by rw [decodeRows, hrec, hrecs]⟩

theorem selectAll_eq_reverse {db : DB} (h : Inv db) : selectAll db = db.rows.reverse :=
  sortByCreatedDesc_of_pairwise db.rows h.1

theorem selectById_updateTitle (db : DB) (id t id2 : String) :
    selectById (updateTitle db id t) id2
      = (selectById db id2).map
          (fun r => if r.id == id then { r with title := t } else r) := by
  rw [selectById, updateTitle, selectById]
  rw [List.find?_map]
  have hpf : ((fun r => r.id == id2) ∘ fun r : Row =>
        if r.id == id then { r with title := t } else r)
      = (fun r : Row => r.id == id2) := by
    funext r
    by_cases hr : r.id = id <;> simp [hr]
  rw [hpf]

/-! ## Claims -/

/-- Claim C1, counterexample: on a create input whose `destination` is
absent, the create route does not fail with `ValidationError` — the insert
is attempted and throws the bind-parameter `TypeError` of better-sqlite3
(an uncaught server error, not a validation failure at the service
boundary). -/
theorem C1_counterexample :
    createHandler emptyDB noDestinationInput "id-0" = (emptyDB, CreateOutcome.sqlBindError)
    ∧ CreateOutcome.sqlBindError ≠ CreateOutcome.validationError :=
  ⟨rfl, by decide⟩

/-- Claim C1 (amended): the create route performs no presence validation at
all.  When `destination` or `content` is absent the insert is still
attempted and fails at the sqlite parameter-binding layer with a
`TypeError` (so no row reaches the store, but as an uncaught server error);
`ValidationError` is never produced, for any input. -/
theorem C1_create_never_validates (db : DB) (input : CreateInput) (id : String)
    (h : input.destination = none ∨ input.content = none) :
    createHandler db input id = (db, CreateOutcome.sqlBindError) ∧
    ∀ (db2 : DB) (input2 : CreateInput) (id2 : String),
      (createHandler db2 input2 id2).2 ≠ CreateOutcome.validationError := by
  constructor
  · rcases h with h | h
    · cases h2 : input.duration <;> cases h3 : input.budget <;> cases h4 : input.type <;>
        cases h5 : input.interests <;> cases h6 : input.activities <;>
        cases h7 : input.content <;> simp [createHandler, h, h2, h3, h4, h5, h6, h7]
    · cases h1 : input.destination <;> cases h2 : input.duration <;>
        cases h3 : input.budget <;> cases h4 : input.type <;>
        cases h5 : input.interests <;> cases h6 : input.activities <;>
        simp [createHandler, h, h1, h2, h3, h4, h5, h6]
  · intro db2 input2 id2
    rcases createHandler_cases db2 input2 id2 with hc | hc | ⟨row, _, _, _, _, hc⟩ <;>
      simp [hc]

/-- Claim C1, witness for the amended theorem at a concrete input. -/
theorem C1_witness :
    createHandler emptyDB noDestinationInput "id-0" = (emptyDB, CreateOutcome.sqlBindError) :=
  (C1_create_never_validates emptyDB noDestinationInput "id-0" (Or.inl rfl)).1

/-- Claim C2: for every finite ordered sequence of strings, including the
empty one, decoding the stored encoding yields the same sequence in content
and order. -/
theorem C2_sequence_roundtrip (s : List String) :
    decodeSequence (encodeSequence s) = some s :=
  decodeSequence_encodeSequence s

/-- Claim C3: for a valid create input (all request-shape fields present,
with a supplied non-empty title) and a fresh id, create succeeds and a
subsequent get on the returned id yields exactly the input's fields plus
the generated id and the store-assigned `created_at`. -/
theorem C3_create_then_get (db : DB) (input : CreateInput) (id t d b ty c : String)
    (n : Int) (ints acts : List String)
    (hfresh : ∀ r ∈ db.rows, r.id ≠ id)
    (ht : input.title = some t) (htne : t ≠ "")
    (hd : input.destination = some d) (hn : input.duration = some n)
    (hb : input.budget = some b) (hty : input.type = some ty)
    (hints : input.interests = some ints) (hacts : input.activities = some acts)
    (hc : input.content = some c) :
    (createHandler db input id).2 = CreateOutcome.created id ∧
    getHandler (createHandler db input id).1 id
      = GetOutcome.ok { id := id, title := t, destination := d, duration := n, budget := b, type := ty, interests := ints, activities := acts, content := c, created_at := db.clock } := by
  have hany : db.rows.any (fun r => r.id == id) = false := by
    rw [List.any_eq_false]; intro r hr; simpa using hfresh r hr
  have hbt : boundTitle input = t := by rw [boundTitle, ht]; simp [htne]
  have hstate : createHandler db input id
      = (⟨db.rows ++ [{ id := id, title := boundTitle input, destination := d, duration := n, budget := b, type := ty, interests := encodeSequence ints, activities := encodeSequence acts, content := c, created_at := db.clock }], db.clock + 1⟩, .created id) := by
    simp [createHandler, hd, hn, hb, hty, hints, hacts, hc, hany]
  rw [hstate]
  refine ⟨rfl, ?_⟩
  have hnone : db.rows.find? (fun r => r.id == id) = none := by
    rw [List.find?_eq_none]; intro r hr; simpa using hfresh r hr
  rw [getHandler, selectById]
  simp only [List.find?_append, hnone, Option.none_or]
  rw [List.find?_cons]
  simp only [BEq.refl]
  rw [decodeRow]
  simp only [decodeSequence_encodeSequence, hbt]

/-- Claim C3, witness: the scenario at a concrete input on the empty
store. -/
theorem C3_witness :
    (createHandler emptyDB titledInput "id-3").2 = CreateOutcome.created "id-3" ∧
    getHandler (createHandler emptyDB titledInput "id-3").1 "id-3"
      = GetOutcome.ok { id := "id-3", title := "Viaggio", destination := "Tokyo", duration := 5, budget := "medio", type := "cultural", interests := ["Arte"], activities := ["Musei"], content := "# Giorno 1", created_at := 0 } :=
  C3_create_then_get emptyDB titledInput "id-3" "Viaggio" "Tokyo" "medio" "cultural"
    "# Giorno 1" 5 ["Arte"] ["Musei"]
    (by intro r hr; simp [emptyDB] at hr) rfl (by decide) rfl rfl rfl rfl rfl rfl rfl

/-- Claim C4: listing is newest-first consistently with insertion order.
On every reachable state `ORDER BY created_at DESC` returns exactly the
rows in reverse insertion order; the empty store lists as an empty sequence
(not an error); and creating three records A, B, C (same valid payload,
distinct ids) on the empty store makes list return them as [C, B, A]. -/
theorem C4_list_newest_first (db : DB) (hdb : Reachable db)
    (input : CreateInput) (t d b ty c : String) (n : Int) (ints acts : List String)
    (idA idB idC : String)
    (ht : input.title = some t) (htne : t ≠ "")
    (hd : input.destination = some d) (hn : input.duration = some n)
    (hb : input.budget = some b) (hty : input.type = some ty)
    (hints : input.interests = some ints) (hacts : input.activities = some acts)
    (hc : input.content = some c)
    (hAB : idA ≠ idB) (hAC : idA ≠ idC) (hBC : idB ≠ idC) :
    selectAll db = db.rows.reverse ∧
    listHandler emptyDB = some [] ∧
    listHandler (createHandler (createHandler (createHandler emptyDB input idA).1 input idB).1 input idC).1
      = some [{ id := idC, title := t, destination := d, duration := n, budget := b, type := ty, interests := ints, activities := acts, content := c, created_at := 2 }, { id := idB, title := t, destination := d, duration := n, budget := b, type := ty, interests := ints, activities := acts, content := c, created_at := 1 }, { id := idA, title := t, destination := d, duration := n, budget := b, type := ty, interests := ints, activities := acts, content := c, created_at := 0 }] := by
  have hbt : boundTitle input = t := by rw [boundTitle, ht]; simp [htne]
  refine ⟨selectAll_eq_reverse (reachable_inv hdb), rfl, ?_⟩
  have h1 : (createHandler emptyDB input idA).1
      = ⟨[{ id := idA, title := boundTitle input, destination := d, duration := n, budget := b, type := ty, interests := encodeSequence ints, activities := encodeSequence acts, content := c, created_at := 0 }], 1⟩ := by
    simp [createHandler, hd, hn, hb, hty, hints, hacts, hc, emptyDB]
  rw [h1]
  have h2 : (createHandler ⟨[{ id := idA, title := boundTitle input, destination := d, duration := n, budget := b, type := ty, interests := encodeSequence ints, activities := encodeSequence acts, content := c, created_at := 0 }], 1⟩ input idB).1
      = ⟨[{ id := idA, title := boundTitle input, destination := d, duration := n, budget := b, type := ty, interests := encodeSequence ints, activities := encodeSequence acts, content := c, created_at := 0 }, { id := idB, title := boundTitle input, destination := d, duration := n, budget := b, type := ty, interests := encodeSequence ints, activities := encodeSequence acts, content := c, created_at := 1 }], 2⟩ := by
    simp [createHandler, hd, hn, hb, hty, hints, hacts, hc, hAB]
  rw [h2]
  have h3 : (createHandler ⟨[{ id := idA, title := boundTitle input, destination := d, duration := n, budget := b, type := ty, interests := encodeSequence ints, activities := encodeSequence acts, content := c, created_at := 0 }, { id := idB, title := boundTitle input, destination := d, duration := n, budget := b, type := ty, interests := encodeSequence ints, activities := encodeSequence acts, content := c, created_at := 1 }], 2⟩ input idC).1
      = ⟨[{ id := idA, title := boundTitle input, destination := d, duration := n, budget := b, type := ty, interests := encodeSequence ints, activities := encodeSequence acts, content := c, created_at := 0 }, { id := idB, title := boundTitle input, destination := d, duration := n, budget := b, type := ty, interests := encodeSequence ints, activities := encodeSequence acts, content := c, created_at := 1 }, { id := idC, title := boundTitle input, destination := d, duration := n, budget := b, type := ty, interests := encodeSequence ints, activities := encodeSequence acts, content := c, created_at := 2 }], 3⟩ := by
    simp [createHandler, hd, hn, hb, hty, hints, hacts, hc, hAC, hBC]
  rw [h3]
  rw [listHandler, selectAll]
  rw [show sortByCreatedDesc [{ id := idA, title := boundTitle input, destination := d, duration := n, budget := b, type := ty, interests := encodeSequence ints, activities := encodeSequence acts, content := c, created_at := 0 }, { id := idB, title := boundTitle input, destination := d, duration := n, budget := b, type := ty, interests := encodeSequence ints, activities := encodeSequence acts, content := c, created_at := 1 }, { id := idC, title := boundTitle input, destination := d, duration := n, budget := b, type := ty, interests := encodeSequence ints, activities := encodeSequence acts, content := c, created_at := 2 }]
      = [{ id := idC, title := boundTitle input, destination := d, duration := n, budget := b, type := ty, interests := encodeSequence ints, activities := encodeSequence acts, content := c, created_at := 2 }, { id := idB, title := boundTitle input, destination := d, duration := n, budget := b, type := ty, interests := encodeSequence ints, activities := encodeSequence acts, content := c, created_at := 1 }, { id := idA, title := boundTitle input, destination := d, duration := n, budget := b, type := ty, interests := encodeSequence ints, activities := encodeSequence acts, content := c, created_at := 0 }]
    from by simp [sortByCreatedDesc, insDesc]]
  simp [decodeRows, decodeRow, decodeSequence_encodeSequence, hbt]

/-- Claim C4, witness: the A-then-B-then-C scenario run concretely from the
empty store. -/
theorem C4_witness :
    selectAll emptyDB = emptyDB.rows.reverse ∧
    listHandler emptyDB = some [] ∧
    listHandler (createHandler (createHandler (createHandler emptyDB titledInput "a").1 titledInput "b").1 titledInput "c").1
      = some [{ id := "c", title := "Viaggio", destination := "Tokyo", duration := 5, budget := "medio", type := "cultural", interests := ["Arte"], activities := ["Musei"], content := "# Giorno 1", created_at := 2 }, { id := "b", title := "Viaggio", destination := "Tokyo", duration := 5, budget := "medio", type := "cultural", interests := ["Arte"], activities := ["Musei"], content := "# Giorno 1", created_at := 1 }, { id := "a", title := "Viaggio", destination := "Tokyo", duration := 5, budget := "medio", type := "cultural", interests := ["Arte"], activities := ["Musei"], content := "# Giorno 1", created_at := 0 }] :=
  C4_list_newest_first emptyDB Reachable.empty titledInput "Viaggio" "Tokyo" "medio"
    "cultural" "# Giorno 1" 5 ["Arte"] ["Musei"] "a" "b" "c" rfl (by decide) rfl rfl rfl
    rfl rfl rfl rfl (by decide) (by decide) (by decide)

/-- Claim C5: on a successful create, the stored title is the supplied one
when a non-empty title is given, and the templated default
`Viaggio a ${destination}` when the title is absent or the empty string. -/
theorem C5_title_defaulting (db : DB) (input : CreateInput) (id d : String)
    (hd : input.destination = some d)
    (hdur : ∃ n, input.duration = some n) (hbud : ∃ b, input.budget = some b)
    (hty : ∃ ty, input.type = some ty) (hints : ∃ l, input.interests = some l)
    (hacts : ∃ l, input.activities = some l) (hcon : ∃ c, input.content = some c)
    (hfresh : ∀ r ∈ db.rows, r.id ≠ id) :
    ∃ row : Row, (createHandler db input id).1.rows = db.rows ++ [row] ∧
      ((input.title = none ∨ input.title = some "") → row.title = "Viaggio a " ++ d) ∧
      (∀ t, input.title = some t → t ≠ "" → row.title = t) := by
  obtain ⟨n, hn⟩ := hdur
  obtain ⟨b, hb⟩ := hbud
  obtain ⟨ty, hty⟩ := hty
  obtain ⟨ints, hints⟩ := hints
  obtain ⟨acts, hacts⟩ := hacts
  obtain ⟨c, hc⟩ := hcon
  have hany : db.rows.any (fun r => r.id == id) = false := by
    rw [List.any_eq_false]; intro r hr; simpa using hfresh r hr
  refine ⟨{ id := id, title := boundTitle input, destination := d, duration := n, budget := b, type := ty, interests := encodeSequence ints, activities := encodeSequence acts, content := c, created_at := db.clock }, ?_, ?_, ?_⟩
  · simp [createHandler, hd, hn, hb, hty, hints, hacts, hc, hany]
  · intro htitle
    show boundTitle input = "Viaggio a " ++ d
    rcases htitle with htitle | htitle <;> rw [boundTitle, htitle] <;> simp [jsStr, hd]
  · intro t htitle htne
    show boundTitle input = t
    rw [boundTitle, htitle]
    simp [htne]

/-- Claim C5, witness: the specification's scenario input (no title,
destination Tokyo) stores the defaulted title. -/
theorem C5_witness :
    ∃ row : Row, (createHandler emptyDB defaultTitleInput "id-5").1.rows
        = emptyDB.rows ++ [row] ∧
      ((defaultTitleInput.title = none ∨ defaultTitleInput.title = some "") →
        row.title = "Viaggio a " ++ "Tokyo") ∧
      (∀ t, defaultTitleInput.title = some t → t ≠ "" → row.title = t) :=
  C5_title_defaulting emptyDB defaultTitleInput "id-5" "Tokyo" rfl ⟨5, rfl⟩
    ⟨"medio", rfl⟩ ⟨"cultural", rfl⟩ ⟨["Arte"], rfl⟩ ⟨["Musei"], rfl⟩ ⟨"# Giorno 1", rfl⟩
    (by intro r hr; simp [emptyDB] at hr)

/-- Claim C6: for every store state and id, delete reports success, a get
after the delete yields the 404 not-found answer, and a second delete of
the same id still reports success. -/
theorem C6_delete_then_get (db : DB) (id : String) :
    (deleteHandler db id).2 = UpdateOutcome.success ∧
    getHandler (deleteHandler db id).1 id = GetOutcome.notFound ∧
    (deleteHandler (deleteHandler db id).1 id).2 = UpdateOutcome.success := by
  refine ⟨rfl, ?_, rfl⟩
  have hnone : ((deleteHandler db id).1.rows).find? (fun r => r.id == id) = none := by
    rw [deleteHandler, deleteById, List.find?_eq_none]
    intro x hx
    have hmem := (List.mem_filter.mp hx).2
    simp at hmem ⊢
    exact hmem
  rw [getHandler, selectById, hnone]

/-- Claim C7: renaming a nonexistent id reports success and leaves the
store, hence the listing and its length, unchanged. -/
theorem C7_rename_nonexistent (db : DB) (id t : String)
    (h : ∀ r ∈ db.rows, r.id ≠ id) :
    patchHandler db id (some t) = (db, UpdateOutcome.success) ∧
    listHandler (patchHandler db id (some t)).1 = listHandler db := by
  have hmap : db.rows.map (fun r => if r.id == id then { r with title := t } else r)
      = db.rows := by
    have hcongr : ∀ r ∈ db.rows,
        (if r.id == id then { r with title := t } else r) = r := by
      intro r hr
      have := h r hr
      simp [this]
    rw [List.map_congr_left hcongr]
    exact List.map_id' db.rows
  have hstate : patchHandler db id (some t) = (db, UpdateOutcome.success) := by
    rw [patchHandler, updateTitle, hmap]
  exact ⟨hstate, by rw [hstate]⟩

/-- Claim C7, witness: renaming the absent id on a one-row store. -/
theorem C7_witness :
    patchHandler sampleDB "missing" (some "New") = (sampleDB, UpdateOutcome.success) ∧
    listHandler (patchHandler sampleDB "missing" (some "New")).1 = listHandler sampleDB :=
  C7_rename_nonexistent sampleDB "missing" "New"
    (by intro r hr; simp [sampleDB, sampleRow] at hr; rw [hr]; decide)

/-- Claim C8: when a row with the given id exists, the title update reports
success and changes exactly that row's title: the updated row keeps every
other field (stated by `{ r with title := t }`), every other id resolves to
the same row as before, and the clock and row count are unchanged. -/
theorem C8_update_only_title (db : DB) (id t : String) (r : Row)
    (h : selectById db id = some r) :
    (patchHandler db id (some t)).2 = UpdateOutcome.success ∧
    selectById (patchHandler db id (some t)).1 id = some { r with title := t } ∧
    (∀ id2, id2 ≠ id → selectById (patchHandler db id (some t)).1 id2 = selectById db id2) ∧
    (patchHandler db id (some t)).1.clock = db.clock ∧
    (patchHandler db id (some t)).1.rows.length = db.rows.length := by
  have hrid : r.id = id := by simpa using List.find?_some h
  have hp1 : (patchHandler db id (some t)).1 = updateTitle db id t := rfl
  refine ⟨rfl, ?_, ?_, rfl, ?_⟩
  · rw [hp1, selectById_updateTitle, h]
    simp [hrid]
  · intro id2 hid2
    rw [hp1, selectById_updateTitle]
    cases hfind : selectById db id2 with
    | none => rfl
    | some r2 =>
      have hr2 : r2.id = id2 := by simpa using List.find?_some hfind
      simp [hr2, hid2]
  · rw [hp1, updateTitle]
    exact List.length_map _ _

/-- Claim C8, witness: updating the one stored row's title. -/
theorem C8_witness :
    (patchHandler sampleDB "r1" (some "New")).2 = UpdateOutcome.success ∧
    selectById (patchHandler sampleDB "r1" (some "New")).1 "r1"
      = some { sampleRow with title := "New" } ∧
    (∀ id2, id2 ≠ "r1" →
      selectById (patchHandler sampleDB "r1" (some "New")).1 id2 = selectById sampleDB id2) ∧
    (patchHandler sampleDB "r1" (some "New")).1.clock = sampleDB.clock ∧
    (patchHandler sampleDB "r1" (some "New")).1.rows.length = sampleDB.rows.length :=
  C8_update_only_title sampleDB "r1" "New" sampleRow (by rw [selectById]; simp [sampleDB, sampleRow])

/-- Claim C9: on every reachable state, get answers the decoded record when
a row with the requested id exists and the 404 not-found answer when it
does not; an absent id is never surfaced as a store or decoding failure. -/
theorem C9_get_found_or_not (db : DB) (id : String) (hdb : Reachable db) :
    ((∃ r ∈ db.rows, r.id = id) → ∃ rec, getHandler db id = GetOutcome.ok rec) ∧
    ((∀ r ∈ db.rows, r.id ≠ id) → getHandler db id = GetOutcome.notFound) := by
  have hinv := reachable_inv hdb
  constructor
  · rintro ⟨r, hr, hrid⟩
    have hsome : (db.rows.find? (fun r => r.id == id)).isSome = true := by
      rw [List.find?_isSome]
      exact ⟨r, hr, by simp [hrid]⟩
    obtain ⟨r2, hr2⟩ := Option.isSome_iff_exists.mp hsome
    have hok := hinv.2.2.2 r2 (List.mem_of_find?_eq_some hr2)
    obtain ⟨rec, hrec⟩ := decodeRow_ok hok
    refine ⟨rec, ?_⟩
    simp [getHandler, selectById, hr2, hrec]
  · intro hnone
    have hfind : db.rows.find? (fun r => r.id == id) = none := by
      rw [List.find?_eq_none]; intro x hx; simpa using hnone x hx
    rw [getHandler, selectById, hfind]

/-- Claim C9, witness: both branches at concrete states — the one-row store
holds "r1", the empty store holds nothing. -/
theorem C9_witness :
    (∃ rec, getHandler sampleDB "r1" = GetOutcome.ok rec) ∧
    getHandler emptyDB "r1" = GetOutcome.notFound :=
  ⟨(C9_get_found_or_not sampleDB "r1"
      (by rw [show sampleDB = (createHandler emptyDB sampleInput "r1").1 from rfl]
          exact Reachable.create emptyDB sampleInput "r1" Reachable.empty)).1
    ⟨sampleRow, by simp [sampleDB], rfl⟩,
   (C9_get_found_or_not emptyDB "r1" Reachable.empty).2
    (by intro r hr; simp [emptyDB] at hr)⟩

/-- Claim C10: on every state reachable through create, rename-title and
delete alone, both sequence columns of every stored row are well-formed
encodings, so listing succeeds (no decode exception) and get never answers
with a decoding failure for any id. -/
theorem C10_reachable_decodes (db : DB) (hdb : Reachable db) :
    (∀ r ∈ db.rows, RowOk r) ∧
    (∃ recs, listHandler db = some recs) ∧
    (∀ id, getHandler db id ≠ GetOutcome.malformedData) := by
  have hinv := reachable_inv hdb
  refine ⟨hinv.2.2.2, ?_, ?_⟩
  · have hall : ∀ r ∈ selectAll db, RowOk r := by
      intro r hr
      rw [selectAll_eq_reverse hinv] at hr
      exact hinv.2.2.2 r (List.mem_reverse.mp hr)
    obtain ⟨recs, hrecs⟩ := decodeRows_ok hall
    exact ⟨recs, by rw [listHandler, hrecs]⟩
  · intro id
    cases hfind : selectById db id with
    | none => simp [getHandler, hfind]
    | some r =>
      have hok := hinv.2.2.2 r (List.mem_of_find?_eq_some hfind)
      obtain ⟨rec, hrec⟩ := decodeRow_ok hok
      simp [getHandler, hfind, hrec]

/-- Claim C10, witness: the invariant consequences at a concrete reachable
state (one create on the empty store). -/
theorem C10_witness :
    (∀ r ∈ sampleDB.rows, RowOk r) ∧
    (∃ recs, listHandler sampleDB = some recs) ∧
    (∀ id, getHandler sampleDB id ≠ GetOutcome.malformedData) :=
  C10_reachable_decodes sampleDB
    (by rw [show sampleDB = (createHandler emptyDB sampleInput "r1").1 from rfl]
        exact Reachable.create emptyDB sampleInput "r1" Reachable.empty)
